import Mathlib

/-!
Verification development for the group-aware deduplicating bulk loader of
the cifparse repository (src/cifparse/functions/dedup.py and
src/cifparse/records/table_base.py), as a shallow embedding.

SQL values are modelled by `Val` (NULL, text, integer); a stored or incoming
row is an ordered association list from column names to values; the store is
the list of rows of the single target table together with its index metadata.
Executing a generated `SELECT ... WHERE ... LIMIT 1` statement is modelled
semantically: the WHERE clause produced by `build_select_one` is a
conjunction of equality tests on the non-null bound values, and a statement
whose WHERE clause is empty is not executable (sqlite raises a syntax
error), which the execution model reports as `none`.
-/

namespace Cifparse

/-- A sqlite value: NULL, a text value, or an integer value. -/
inductive Val where
  | null
  | str (s : String)
  | int (n : Int)
  deriving DecidableEq, Repr

/-- Python truthiness for the modelled values (None, "", 0 are falsy). -/
def Val.truthy : Val → Bool
  | .null => false
  | .str s => !s.isEmpty
  | .int n => n != 0

/-- A row: ordered mapping from column names to values, like the Python
dicts passed to the loader. -/
def Row := List (String × Val)

instance : DecidableEq Row := inferInstanceAs (DecidableEq (List (String × Val)))

/-- Column access, `dict.get` semantics: absent columns read as NULL.
(The Python code indexes `r[k]` where the key is always present; `dict.get`
is used on the name field.) -/
def getV (r : Row) (c : String) : Val := ((r.lookup c).getD Val.null)

/-- Substring test on character lists, mirroring the Python `in` operator. -/
def hasSub (pat : List Char) : List Char → Bool
  | [] => pat.isEmpty
  | c :: rest => pat.isPrefixOf (c :: rest) || hasSub pat rest

/-- Substring test on strings (`pat in s` in Python). -/
def strContains (s pat : String) : Bool := hasSub pat.data s.data

/-- Suffix test on strings (`s.endswith(post)` in Python). -/
def strEndsWith (s post : String) : Bool := post.data.isSuffixOf s.data

/-- Replace every non-overlapping occurrence of `pat` (left to right) by
`rep`, mirroring Python `str.replace`. -/
def replaceSub (pat rep : List Char) : List Char → List Char
  | [] => []
  | c :: rest =>
    if h : pat ≠ [] ∧ pat.isPrefixOf (c :: rest) then
      rep ++ replaceSub pat rep ((c :: rest).drop pat.length)
    else
      c :: replaceSub pat rep rest
termination_by l => l.length
decreasing_by
  · simp only [List.length_drop]
    have hp : 1 ≤ pat.length := List.length_pos.mpr h.1
    simp only [List.length_cons]
    omega
  · simp only [List.length_cons]
    omega

/-- First index of `pivot` in the list, mirroring Python `list.index`
(which raises `ValueError`, here `none`, when absent). -/
def indexOfFirst (pivot : String) : List String → Option Nat
  | [] => none
  | x :: rest => if x = pivot then some 0 else (indexOfFirst pivot rest).map (· + 1)

/-- Embeds `fields_before` (dedup.py lines 22-32): the sublist of `fields`
strictly before the first occurrence of `pivot`; the whole list when
`pivot` is absent (the `except ValueError` branch). -/
def fields_before (fields : List String) (pivot : String := "seq_no") : List String :=
  match indexOfFirst pivot fields with
  | some i => fields.take i
  | none => fields

/-- The (column, value) pairs kept by the `build_select_one` loop: pairs
whose value is None are skipped by the `continue` statement. -/
def keptPairs (columns : List String) (values : List Val) : List (String × Val) :=
  (columns.zip values).filter (fun p => decide (p.2 ≠ Val.null))

/-- Embeds `build_select_one` (dedup.py lines 45-72). Returns the SQL text
and the bound parameters; `.error` is the `ValueError` raised on an arity
mismatch. The `IS`/`=` choice is kept as in the source even though the
`continue` above it makes the `IS` arm dead. -/
def build_select_one (table : String) (columns : List String) (values : List Val) :
    Except String (String × List Val) :=
  if columns.length ≠ values.length then
    .error "columns and values must have the same length"
  else
    let kept := keptPairs columns values
    let whereParts := kept.map
      (fun p => p.1 ++ " " ++ (if p.2 = Val.null then "IS" else "=") ++ " ?")
    .ok ("SELECT * FROM " ++ table ++ " WHERE " ++
           String.intercalate " AND " whereParts ++ " LIMIT 1",
         kept.map (·.2))

/-- Does a stored row satisfy the WHERE conjunction over the kept pairs. -/
def rowMatches (r : Row) (kept : List (String × Val)) : Bool :=
  kept.all (fun p => decide (getV r p.1 = p.2))

/-- Executing the statement built by `build_select_one` against the stored
rows and testing `fetchone()` for truth. `none` models the sqlite syntax
error raised when every value was NULL, so the WHERE clause is empty. -/
def execSelectOne (dbrows : List Row) (columns : List String) (values : List Val) :
    Option Bool :=
  let kept := keptPairs columns values
  if kept.isEmpty then none
  else some (dbrows.any (fun r => rowMatches r kept))

/-- The NATO phonetic lookup table `alphabetToPhoentic` (dedup.py lines
165-192, name kept with the source's spelling). -/
def alphabetToPhoentic : Char → Option String
  | 'A' => some "ALPHA"
  | 'B' => some "BRAVO"
  | 'C' => some "CHARLIE"
  | 'D' => some "DELTA"
  | 'E' => some "ECHO"
  | 'F' => some "FOXTROT"
  | 'G' => some "GOLF"
  | 'H' => some "HOTEL"
  | 'I' => some "INDIA"
  | 'J' => some "JULIETT"
  | 'K' => some "KILO"
  | 'L' => some "LIMA"
  | 'M' => some "MIKE"
  | 'N' => some "NOVEMBER"
  | 'O' => some "OSCAR"
  | 'P' => some "PAPA"
  | 'Q' => some "QUEBEC"
  | 'R' => some "ROMEO"
  | 'S' => some "SIERRA"
  | 'T' => some "TANGO"
  | 'U' => some "UNIFORM"
  | 'V' => some "VICTOR"
  | 'W' => some "WHISKEY"
  | 'X' => some "XRAY"
  | 'Y' => some "YANKEE"
  | 'Z' => some "ZULU"
  | _ => none

/-- Values of an association list in order, like `list(d.values())`. -/
def valsOf (d : List (String × Val)) : List Val := d.map (·.2)

/-- Assignment `d[k] = v` on an association list built with distinct keys
(`dict(zip(group_fields, gkey))` assignment keeps the key position). -/
def updAssoc (d : List (String × Val)) (k : String) (v : Val) : List (String × Val) :=
  d.map (fun p => if p.1 = k then (p.1, v) else p)

/-- The `K`/`S`-prefixed part of the restrictive-airspace key expansion
(dedup.py lines 250-300), given the identifier characters `cs` (non-empty,
first character K or S). Returns the candidate keys appended after the
literal key, in derivation order; `none` models the `IndexError` the source
raises at `gkey[1]` when the key tuple has fewer than two entries. -/
def ksExpansion (gdict : List (String × Val)) (f : String) (cs : List Char)
    (gkey : List Val) : Option (List (List Val)) :=
  let cand := fun (l : List Char) => valsOf (updAssoc gdict f (.str (String.mk l)))
  let c1 := cs.drop 1
  let two := decide (1 < cs.length) && (cs.getD 1 ' ' == 'S' || cs.getD 1 ' ' == 'R' ||
             cs.getD 1 ' ' == 'A' || cs.getD 1 ' ' == 'P' || cs.getD 1 ' ' == 'W')
  let c2 := cs.drop 2
  let copyId := if two then c2 else c1
  let front := if two then [cand c1, cand c2] else [cand c1]
  let last := cs.getLastD ' '
  let sufPart : Option (List (List Val)) :=
    if last == 'N' then some [cand (copyId.dropLast ++ " NORTH".data)]
    else if last == 'E' then some [cand (copyId.dropLast ++ " EAST".data)]
    else if last == 'W' then some [cand (copyId.dropLast ++ " WEST".data)]
    else if last == 'S' then some [cand (copyId.dropLast ++ " SOUTH".data)]
    else
      let pw := (alphabetToPhoentic last).getD (String.mk [last])
      let pid := copyId.dropLast ++ (" " ++ pw).data
      match gkey[1]? with
      | none => none
      | some v =>
        if v = .str "USA" then some [cand pid, cand pid.dropLast]
        else some [cand pid]
  match sufPart with
  | none => none
  | some suf =>
    let s := String.mk cs
    let hih := if strContains s "HIH" then
        [cand (replaceSub "HIH".data " HIGH".data cs)] else []
    let hl := if strContains s "HIGH" then
        [cand (replaceSub "HIGH".data " HIGH".data cs)]
      else if strContains s "LOW" then
        [cand (replaceSub "LOW".data " LOW".data cs)] else []
    some (front ++ suf ++ hih ++ hl)

/-- Per-group data computed before the existence probes: the candidate key
list (`gkeys`, literal key first), the reassigned string `id_field` (only
when the restrictive branch ran), and the name field and its value. -/
structure GroupCtx where
  gkeys : List (List Val)
  idField : Option String
  nameField : Option String
  nameVal : Option Val
  deriving DecidableEq, Repr

/-- Dispatch on the string identifier (dedup.py lines 250-309): the
`K`/`S`-prefix expansion, else the `HIH` / `LOW` substring normalizations,
else no extra candidates. Returns the candidates appended after the
literal key. -/
def strExpansion (gdict : List (String × Val)) (f : String) (s : String)
    (gkey : List Val) : Option (List (List Val)) :=
  let cs := s.data
  if !s.isEmpty && (cs.headD ' ' == 'K' || cs.headD ' ' == 'S') then
    ksExpansion gdict f cs gkey
  else if strContains s "HIH" then
    some [valsOf (updAssoc gdict f
      (.str (String.mk (replaceSub "HIH".data " HIGH".data cs))))]
  else if strContains s "LOW" then
    some [valsOf (updAssoc gdict f
      (.str (String.mk (replaceSub "LOW".data " LOW".data cs))))]
  else some []

/-- Embeds the candidate-key construction of
`insert_groups_with_conflict_report` (dedup.py lines 236-309). `none`
models an uncaught Python exception (TypeError on a truthy non-string
identifier, IndexError at `gkey[1]`). Association-list lookup and update
model the `dict` built by `dict(zip(group_fields, gkey))`; the group field
names are distinct in every call site, so first-key lookup agrees with the
dict. -/
def expandCandidates (table : String) (gf : List String) (gkey : List Val)
    (row0 : Row) : Option GroupCtx :=
  match (gf.filter (fun c => strEndsWith c "_id")).head? with
  | none => some ⟨[gkey], none, none, none⟩
  | some f =>
    if strContains table "restrictive" && (((gf.zip gkey).lookup f).getD Val.null).truthy
    then
      match ((gf.zip gkey).lookup f).getD Val.null with
      | .str s =>
        (strExpansion (gf.zip gkey) f s gkey).map (fun extras =>
          ⟨gkey :: extras, some f,
           ((row0.map (·.1)).filter (fun c => strEndsWith c "_name")).head?,
           (((row0.map (·.1)).filter (fun c => strEndsWith c "_name")).head?).map
             (fun nf => getV row0 nf)⟩)
      | _ => none
    else
      some ⟨[gkey], none, none, none⟩

/-- The `fieldsKeys` dict of the name-based fallback (dedup.py lines
328-331): group fields whose name contains none of `_id`, `_type`,
`mult_code`, valued from the first row of the group. -/
def fieldsKV (gf : List String) (row0 : Row) : List (String × Val) :=
  (gf.filter (fun fd => !(strContains fd "_id") && !(strContains fd "_type") &&
      !(strContains fd "mult_code"))).map (fun fd => (fd, getV row0 fd))

/-- Case folding used by sqlite `LIKE` on ASCII text; integers are coerced
to their text form. -/
def likeContains (stored : Val) (pat : String) : Bool :=
  match stored with
  | .str h => strContains h.toUpper pat.toUpper
  | .int n => strContains (toString n).toUpper pat.toUpper
  | .null => false

/-- Executing the name-based fallback probe (dedup.py lines 333-336): the
`build_select_one` predicate over `fieldsKeys` with an appended
`name LIKE '%' || ? || '%'` conjunct. `none` models the Python crash on a
non-string name (`_name.split`) or on an empty WHERE conjunction. -/
def execLikeProbe (dbrows : List Row) (kv : List (String × Val)) (nameF : String)
    (nameV : Val) : Option Bool :=
  match nameV with
  | .str ns =>
    let kept := kv.filter (fun p => decide (p.2 ≠ Val.null))
    if kept.isEmpty then none
    else
      let pat := (ns.splitOn ",").headD ""
      some (dbrows.any (fun r => rowMatches r kept && likeContains (getV r nameF) pat))
  | _ => none

/-- The per-candidate probe loop (dedup.py lines 311-338). Returns
`(exists, executed-statement-count)`; `.error n` models an uncaught store
exception after `n` successfully executed statements. A successful
fallback probe on the key without its last field exits the loop **without**
setting `exists` (the bare `break` at line 325). -/
def probeLoop (dbrows : List Row) (gf : List String) (fallback : Bool)
    (kv : List (String × Val)) (nameF : String) (nameV : Val) :
    List (List Val) → Nat → Except Nat (Bool × Nat)
  | [], n => .ok (false, n)
  | cand :: rest, n =>
    match execSelectOne dbrows gf cand with
    | none => .error n
    | some true => .ok (true, n + 1)
    | some false =>
      if fallback then
        match execSelectOne dbrows gf.dropLast cand.dropLast with
        | none => .error (n + 1)
        | some true => .ok (false, n + 2)
        | some false =>
          match execLikeProbe dbrows kv nameF nameV with
          | none => .error (n + 2)
          | some true => .ok (true, n + 3)
          | some false => probeLoop dbrows gf fallback kv nameF nameV rest (n + 3)
      else probeLoop dbrows gf fallback kv nameF nameV rest (n + 1)

/-- Does inserting `r` violate one of the table's UNIQUE indexes against a
stored row (sqlite semantics: a NULL in an indexed column never
conflicts). -/
def violates (uniqs : List (List String)) (dbrows : List Row) (r : Row) : Bool :=
  uniqs.any (fun u => dbrows.any (fun ex => u.all (fun c =>
    decide (getV r c = getV ex c) && decide (getV r c ≠ Val.null))))

/-- Embeds `cur.executemany(INSERT OR IGNORE ...)` over a group's rows:
rows are appended one at a time unless they conflict; returns the new
stored rows and the `rowcount` of actually inserted rows. -/
def insertOrIgnoreMany (uniqs : List (List String)) (dbrows : List Row) :
    List Row → List Row × Nat
  | [] => (dbrows, 0)
  | r :: rs =>
    if violates uniqs dbrows r then insertOrIgnoreMany uniqs dbrows rs
    else
      let p := insertOrIgnoreMany uniqs (dbrows ++ [r]) rs
      (p.1, p.2 + 1)

/-- Statement counting for the per-unique-index diagnostics re-probes
(dedup.py lines 368-378): one SELECT per distinct attempted projection;
`.error` models the malformed SELECT built from an empty index column
list. -/
def diagStmtsGo (grpRows : List Row) : List (List String) → Nat → Except Nat Nat
  | [], n => .ok n
  | u :: us, n =>
    if u.isEmpty then .error n
    else diagStmtsGo grpRows us (n + ((grpRows.map (fun r => u.map (getV r))).dedup).length)

/-- Result of processing one group: the stored rows afterwards, the number
of successfully executed statements, and whether an uncaught Python
exception aborted the call. -/
structure GroupStep where
  rows : List Row
  stmts : Nat
  crashed : Bool
  deriving DecidableEq

/-- Processing of a single group by `insert_groups_with_conflict_report`
(dedup.py lines 234-378): candidate expansion, the probe loop, the
optimistic `INSERT OR IGNORE`, and the conflict diagnostics (modelled only
by their statement count - they print but never change the store). -/
def processGroup (table : String) (gf : List String) (uniqs : List (List String))
    (dbrows : List Row) (gkey : List Val) (grpRows : List Row) : GroupStep :=
  match expandCandidates table gf gkey (grpRows.headD []) with
  | none => ⟨dbrows, 0, true⟩
  | some ctx =>
    let fallback := decide (ctx.gkeys.length > 1) && ctx.idField.isSome &&
        (ctx.nameVal.getD Val.null).truthy && ctx.nameField.isSome
    let kv := fieldsKV gf (grpRows.headD [])
    match probeLoop dbrows gf fallback kv (ctx.nameField.getD "")
        (ctx.nameVal.getD Val.null) ctx.gkeys 0 with
    | .error n => ⟨dbrows, n, true⟩
    | .ok (true, n) => ⟨dbrows, n, false⟩
    | .ok (false, n) =>
      let ins := insertOrIgnoreMany uniqs dbrows grpRows
      if ins.2 = grpRows.length then ⟨ins.1, n + 1, false⟩
      else
        match diagStmtsGo grpRows uniqs 0 with
        | .error d => ⟨ins.1, n + 2 + d, true⟩
        | .ok d => ⟨ins.1, n + 2 + d, false⟩

/-- Outcome of a load call: normal return with the boolean result, the
stored rows and the executed-statement count, or an uncaught exception
(`err`) with the rows committed before it. -/
inductive Outcome where
  | ok (result : Bool) (rows : List Row) (stmts : Nat)
  | err (rows : List Row) (stmts : Nat)
  deriving DecidableEq

/-- The stored rows after the call, on both exit paths. -/
def Outcome.finalRows : Outcome → List Row
  | .ok _ r _ => r
  | .err r _ => r

/-- Bucket insertion preserving first-appearance order, like the
`defaultdict(list)` keyed by the group-key tuple. -/
def bucketInsert (k : List Val) (r : Row) :
    List (List Val × List Row) → List (List Val × List Row)
  | [] => [(k, [r])]
  | (k', rs) :: rest =>
    if k' = k then (k', rs ++ [r]) :: rest else (k', rs) :: bucketInsert k r rest

/-- Buckets rows by their composite group key (dedup.py lines 216-218). -/
def bucket (gf : List String) (rows : List Row) : List (List Val × List Row) :=
  rows.foldl (fun acc r => bucketInsert (gf.map (getV r)) r acc) []

/-- The per-group loop of `insert_groups_with_conflict_report`; after the
loop the source returns `True` unconditionally (line 379). -/
def runGroups (table : String) (gf : List String) (uniqs : List (List String)) :
    List (List Val × List Row) → List Row → Nat → Outcome
  | [], dbrows, n => .ok true dbrows n
  | (k, rs) :: rest, dbrows, n =>
    let step := processGroup table gf uniqs dbrows k rs
    if step.crashed then .err step.rows (n + step.stmts)
    else runGroups table gf uniqs rest step.rows (n + step.stmts)

/-- The store handle: the target table's rows plus its index metadata
(`PRAGMA index_list` order: column tuple and the unique flag). -/
structure DB where
  rows : List Row
  indexes : List (List String × Bool)

/-- The UNIQUE index column tuples, as `_unique_indexes` (dedup.py lines
35-43) discovers them. -/
def uniqueIndexes (db : DB) : List (List String) :=
  (db.indexes.filter (·.2)).map (·.1)

/-- Embeds `insert_groups_with_conflict_report` (dedup.py lines 195-379).
An empty batch returns `False` before touching the store; otherwise the
unique indexes are introspected (one `PRAGMA index_list` plus one
`PRAGMA index_info` per unique index), rows are bucketed by group key and
each group is probed and optimistically inserted in turn. -/
def insert_groups_with_conflict_report (db : DB) (table : String)
    (rows : List Row) (group_fields : List String) : Outcome :=
  if rows.isEmpty then .ok false db.rows 0
  else
    let uniqs := uniqueIndexes db
    runGroups table group_fields uniqs (bucket group_fields rows) db.rows
      (1 + uniqs.length)

/-- Embeds `bulk_insert_if_group_new` (dedup.py lines 78-162): its first
statement returns the delegate's result, so the batched WITH/VALUES
implementation below that return statement never executes. -/
def bulk_insert_if_group_new (db : DB) (table : String) (rows : List Row)
    (key_fields : List String) : Outcome :=
  insert_groups_with_conflict_report db table rows key_fields

/-- Splits a list into consecutive chunks of size `max 1 n`, mirroring
`range(0, len(all_keys), batch_sz)` slicing with `batch_sz = max(1, ...)`
(dedup.py lines 113, 125-126). -/
def chunksOf (n : Nat) : List (List Val) → List (List (List Val))
  | [] => []
  | x :: xs => ((x :: xs).take (max 1 n)) :: chunksOf n ((x :: xs).drop (max 1 n))
termination_by l => l.length
decreasing_by
  simp only [List.length_drop, List.length_cons]
  have h1 : 1 ≤ max 1 n := Nat.le_max_left 1 n
  omega

/-- Does a stored row join a candidate key on the group columns under
`JOIN ... USING` equality (a NULL on either side never matches). -/
def keyMatchesRow (gf : List String) (key : List Val) (r : Row) : Bool :=
  (gf.zip key).all (fun p => decide (p.2 ≠ Val.null) && decide (getV r p.1 = p.2))

/-- One chunk's existence query (dedup.py lines 128-139): the keys of the
chunk that join a stored row on the group columns. -/
def probeChunk (dbrows : List Row) (gf : List String) (chunk : List (List Val)) :
    List (List Val) :=
  chunk.filter (fun key => dbrows.any (keyMatchesRow gf key))

/-- The batched existence prober of `bulk_insert_if_group_new` (dedup.py
lines 103-139), with the parameter budget (`_param_limit`, 999 in the
source) as a parameter: chunk size `max 1 (budget / width)`, one probe per
chunk, results unioned. -/
def existingKeys (budget : Nat) (dbrows : List Row) (gf : List String)
    (keys : List (List Val)) : List (List Val) :=
  ((chunksOf (budget / gf.length) keys).map (probeChunk dbrows gf)).flatten

/-- A record shape as `TableBase` (table_base.py) sees it: the table name,
the plain field list `get_fields()`, the typed field strings
`get_fields(True)`, and the leading fields when the record class has
`ordered_leading`. -/
structure TableShape where
  table_name : String
  fields : List String
  typed_fields : List String
  leading : Option (List String)

/-- The error type the specification attributes to the Schema Descriptor.
The source never raises it; the `Except` codomains below record that no
error path exists. -/
inductive SchemaError where
  | emptyFields
  deriving DecidableEq, Repr

/-- Embeds `TableBase.to_create_statement` (table_base.py lines 42-50). -/
def to_create_statement (t : TableShape) : String :=
  let field_string := String.intercalate ", " t.typed_fields
  let primary_key :=
    match t.leading with
    | some lf =>
      if lf.isEmpty then "" else ", PRIMARY KEY (" ++ String.intercalate ", " lf ++ ")"
    | none => ""
  "CREATE TABLE IF NOT EXISTS " ++ t.table_name ++ " (" ++ field_string ++
    primary_key ++ ");"

/-- Embeds `TableBase.to_insert_statement` (table_base.py lines 52-58). -/
def to_insert_statement (t : TableShape) : String :=
  let field_string := String.intercalate ", " t.fields
  let placeholders := String.intercalate ", " (t.fields.map (fun i => ":" ++ i))
  "INSERT OR IGNORE INTO " ++ t.table_name ++ " (" ++ field_string ++ ") VALUES (" ++
    placeholders ++ ");"

/-- The create-statement derivation with an error-capable codomain: the
source has no raise statement, so the result is always `.ok`. -/
def to_create_statement_result (t : TableShape) : Except SchemaError String :=
  .ok (to_create_statement t)

/-- The insert-statement derivation with an error-capable codomain: the
source has no raise statement, so the result is always `.ok`. -/
def to_insert_statement_result (t : TableShape) : Except SchemaError String :=
  .ok (to_insert_statement t)

deriving instance DecidableEq for Except

/-! Concrete instances used by the counterexample and witness theorems.
`demoRow1`/`demoRow2` are the two rows of the demo batch at the bottom of
dedup.py (lines 394-397); the reno rows instantiate the restrictive
airspace scenario of the specification. -/

/-- First demo row (`x=A, y=B, z=C, seq_no=1, ...`). -/
def demoRow1 : Row := [("x", .str "A"), ("y", .str "B"), ("z", .str "C"),
  ("seq_no", .int 1), ("dow", .int 2), ("start_min", .int 600), ("end_min", .int 720)]

/-- Second demo row (`x=A, y=B, z=C, seq_no=2, ...`). -/
def demoRow2 : Row := [("x", .str "A"), ("y", .str "B"), ("z", .str "C"),
  ("seq_no", .int 2), ("dow", .int 3), ("start_min", .int 800), ("end_min", .int 900)]

/-- The demo batch: one group (key A,B,C) of two rows. -/
def demoBatch : List Row := [demoRow1, demoRow2]

/-- An incoming restrictive-airspace row whose identifier is the EAD
spelling `KSRENON`. -/
def renoIncoming : Row :=
  [("region", .str "ZZ"), ("restrictive_id", .str "KSRENON"), ("seq_no", .int 1)]

/-- A stored restrictive-airspace row under the expanded spelling
`RENO NORTH`. -/
def renoStored : Row := [("region", .str "ZZ"), ("restrictive_id", .str "RENO NORTH")]

/-- A stored row with group key `x = A` and a trailing field. -/
def c3Stored : Row := [("x", .str "A"), ("seq_no", .int 9), ("note", .str "old")]

/-- A fresh batch of two rows sharing group key `x = A` but with new
trailing values. -/
def c3Batch : List Row :=
  [[("x", .str "A"), ("seq_no", .int 1), ("note", .str "new1")],
   [("x", .str "A"), ("seq_no", .int 2), ("note", .str "new2")]]

/-! Helper lemmas. -/

theorem indexOfFirst_eq_none (pivot : String) (l : List String) :
    indexOfFirst pivot l = none ↔ pivot ∉ l := by
  induction l with
  | nil => simp [indexOfFirst]
  | cons x rest ih =>
    by_cases hx : x = pivot
    · simp [indexOfFirst, hx]
    · rw [indexOfFirst, if_neg hx, List.mem_cons]
      simp only [Option.map_eq_none', ih]
      constructor
      · intro h hc
        rcases hc with hc | hc
        · exact hx hc.symm
        · exact h hc
      · intro h
        exact fun hc => h (Or.inr hc)

theorem indexOfFirst_take (pivot : String) :
    ∀ (l : List String) (i : Nat), indexOfFirst pivot l = some i →
      pivot ∉ l.take i ∧ ∃ suffix, l = l.take i ++ pivot :: suffix := by
  intro l
  induction l with
  | nil => intro i h; simp [indexOfFirst] at h
  | cons x rest ih =>
    intro i h
    by_cases hx : x = pivot
    · rw [indexOfFirst, if_pos hx] at h
      cases h
      exact ⟨by simp, rest, by simp [hx]⟩
    · rw [indexOfFirst, if_neg hx] at h
      rw [Option.map_eq_some'] at h
      obtain ⟨j, hj, rfl⟩ := h
      obtain ⟨h1, suffix, h2⟩ := ih j hj
      refine ⟨?_, suffix, ?_⟩
      · rw [List.take_succ_cons, List.mem_cons]
        rintro (hc | hc)
        · exact hx hc.symm
        · exact h1 hc
      · rw [List.take_succ_cons, List.cons_append]
        rw [← h2]

theorem mem_zip_map_self {f : String → Val} :
    ∀ {l : List String} {p : String × Val}, p ∈ l.zip (l.map f) → p.2 = f p.1 := by
  intro l
  induction l with
  | nil => intro p h; simp at h
  | cons a rest ih =>
    intro p h
    rw [List.map_cons, List.zip_cons_cons] at h
    rcases List.mem_cons.mp h with h1 | h2
    · subst h1; rfl
    · exact ih h2

theorem rowMatches_self (r : Row) (gf : List String) :
    rowMatches r (keptPairs gf (gf.map (getV r))) = true := by
  rw [rowMatches, List.all_eq_true]
  intro p hp
  have hz := (List.mem_filter.mp hp).1
  have := mem_zip_map_self hz
  simp [this]

theorem execSelectOne_match (dbrows : List Row) (gf : List String) (g : List Val)
    (hne : keptPairs gf g ≠ []) (r : Row) (hr : r ∈ dbrows)
    (hm : rowMatches r (keptPairs gf g) = true) :
    execSelectOne dbrows gf g = some true := by
  rw [execSelectOne]
  rw [if_neg (by simpa using hne)]
  have : dbrows.any (fun x => rowMatches x (keptPairs gf g)) = true :=
    List.any_eq_true.mpr ⟨r, hr, hm⟩
  rw [this]

theorem probeLoop_head_match (dbrows : List Row) (gf : List String) (fallback : Bool)
    (kv : List (String × Val)) (nameF : String) (nameV : Val) (g : List Val)
    (rest : List (List Val)) (n : Nat)
    (hne : keptPairs gf g ≠ [])
    (r : Row) (hr : r ∈ dbrows) (hm : rowMatches r (keptPairs gf g) = true) :
    probeLoop dbrows gf fallback kv nameF nameV (g :: rest) n = .ok (true, n + 1) := by
  rw [probeLoop, execSelectOne_match dbrows gf g hne r hr hm]

theorem probeLoop_head_malformed (dbrows : List Row) (gf : List String) (fallback : Bool)
    (kv : List (String × Val)) (nameF : String) (nameV : Val) (g : List Val)
    (rest : List (List Val)) (n : Nat)
    (hk : keptPairs gf g = []) :
    probeLoop dbrows gf fallback kv nameF nameV (g :: rest) n = .error n := by
  rw [probeLoop]
  have : execSelectOne dbrows gf g = none := by
    rw [execSelectOne, if_pos (by simp [hk])]
  rw [this]

theorem expandCandidates_head {table : String} {gf : List String} {gkey : List Val}
    {row0 : Row} {ctx : GroupCtx}
    (h : expandCandidates table gf gkey row0 = some ctx) :
    ∃ tl, ctx.gkeys = gkey :: tl := by
  unfold expandCandidates at h
  cases hh : (gf.filter (fun c => strEndsWith c "_id")).head? with
  | none =>
    rw [hh] at h
    cases h
    exact ⟨[], rfl⟩
  | some f =>
    rw [hh] at h
    dsimp only at h
    by_cases hc : (strContains table "restrictive" &&
        (((gf.zip gkey).lookup f).getD Val.null).truthy) = true
    · rw [if_pos hc] at h
      cases hval : ((gf.zip gkey).lookup f).getD Val.null with
      | null => rw [hval] at h; dsimp only at h; cases h
      | int n => rw [hval] at h; dsimp only at h; cases h
      | str s =>
        rw [hval] at h
        dsimp only at h
        cases hse : strExpansion (gf.zip gkey) f s gkey with
        | none => rw [hse] at h; cases h
        | some ex =>
          rw [hse, Option.map_some'] at h
          cases h
          exact ⟨ex, rfl⟩
    · rw [if_neg hc] at h
      cases h
      exact ⟨[], rfl⟩

theorem bucketInsert_inv {f : Row → List Val} {k : List Val} {r : Row}
    (hr : f r = k) :
    ∀ (acc : List (List Val × List Row)),
    (∀ p ∈ acc, ∀ x ∈ p.2, f x = p.1) →
    ∀ p ∈ bucketInsert k r acc, ∀ x ∈ p.2, f x = p.1 := by
  intro acc
  induction acc with
  | nil =>
    intro _ p hp x hx
    rw [bucketInsert] at hp
    rcases List.mem_cons.mp hp with h1 | h1
    · subst h1
      rcases List.mem_cons.mp hx with h2 | h2
      · subst h2; exact hr
      · simp at h2
    · simp at h1
  | cons b rest ih =>
    intro hacc p hp x hx
    obtain ⟨k', rs⟩ := b
    rw [bucketInsert] at hp
    by_cases hk : k' = k
    · rw [if_pos hk] at hp
      rcases List.mem_cons.mp hp with h1 | h1
      · subst h1
        rcases List.mem_append.mp hx with h2 | h2
        · exact hacc (k', rs) (List.mem_cons_self _ _) x h2
        · rcases List.mem_cons.mp h2 with h3 | h3
          · subst h3; rw [hr, hk]
          · simp at h3
      · exact hacc p (List.mem_cons_of_mem _ h1) x hx
    · rw [if_neg hk] at hp
      rcases List.mem_cons.mp hp with h1 | h1
      · subst h1
        exact hacc (k', rs) (List.mem_cons_self _ _) x hx
      · exact ih (fun q hq => hacc q (List.mem_cons_of_mem _ hq)) p h1 x hx

theorem bucket_inv_aux (gf : List String) :
    ∀ (rows : List Row) (acc : List (List Val × List Row)),
    (∀ p ∈ acc, ∀ x ∈ p.2, gf.map (getV x) = p.1) →
    ∀ p ∈ rows.foldl (fun a r => bucketInsert (gf.map (getV r)) r a) acc,
      ∀ x ∈ p.2, gf.map (getV x) = p.1 := by
  intro rows
  induction rows with
  | nil => intro acc h; simpa using h
  | cons r rest ih =>
    intro acc h
    rw [List.foldl_cons]
    exact ih _ (bucketInsert_inv rfl acc h)

theorem bucket_inv (gf : List String) (rows : List Row) :
    ∀ p ∈ bucket gf rows, ∀ x ∈ p.2, gf.map (getV x) = p.1 :=
  bucket_inv_aux gf rows [] (by simp)

theorem insertOrIgnoreMany_countP (p : Row → Bool) (uniqs : List (List String)) :
    ∀ (rs dbrows : List Row), (∀ r ∈ rs, p r = false) →
    ((insertOrIgnoreMany uniqs dbrows rs).1).countP p = dbrows.countP p := by
  intro rs
  induction rs with
  | nil => intro dbrows _; rfl
  | cons r rest ih =>
    intro dbrows h
    rw [insertOrIgnoreMany]
    by_cases hv : violates uniqs dbrows r
    · rw [if_pos hv]
      exact ih dbrows (fun x hx => h x (List.mem_cons_of_mem _ hx))
    · rw [if_neg hv]
      have := ih (dbrows ++ [r]) (fun x hx => h x (List.mem_cons_of_mem _ hx))
      rw [this, List.countP_append, List.countP_cons, List.countP_nil]
      rw [h r (List.mem_cons_self _ _)]
      simp

theorem insertOrIgnoreMany_mono (uniqs : List (List String)) :
    ∀ (rs dbrows : List Row) (x : Row), x ∈ dbrows →
      x ∈ (insertOrIgnoreMany uniqs dbrows rs).1 := by
  intro rs
  induction rs with
  | nil => intro dbrows x hx; exact hx
  | cons r rest ih =>
    intro dbrows x hx
    rw [insertOrIgnoreMany]
    by_cases hv : violates uniqs dbrows r
    · rw [if_pos hv]; exact ih dbrows x hx
    · rw [if_neg hv]
      exact ih (dbrows ++ [r]) x (List.mem_append_left _ hx)

theorem processGroup_rows_cases (table : String) (gf : List String)
    (uniqs : List (List String)) (dbrows : List Row) (k : List Val)
    (grpRows : List Row) :
    (processGroup table gf uniqs dbrows k grpRows).rows = dbrows ∨
    (processGroup table gf uniqs dbrows k grpRows).rows =
      (insertOrIgnoreMany uniqs dbrows grpRows).1 := by
  unfold processGroup
  split
  · exact Or.inl rfl
  · dsimp only
    split
    · exact Or.inl rfl
    · exact Or.inl rfl
    · split
      · exact Or.inr rfl
      · split
        · exact Or.inr rfl
        · exact Or.inr rfl

theorem processGroup_countP (p : Row → Bool) (table : String) (gf : List String)
    (uniqs : List (List String)) (dbrows : List Row) (k : List Val) (grpRows : List Row)
    (h : ∀ r ∈ grpRows, p r = false) :
    ((processGroup table gf uniqs dbrows k grpRows).rows).countP p = dbrows.countP p := by
  rcases processGroup_rows_cases table gf uniqs dbrows k grpRows with hc | hc <;> rw [hc]
  exact insertOrIgnoreMany_countP p uniqs grpRows dbrows h

theorem processGroup_mono (table : String) (gf : List String)
    (uniqs : List (List String)) (dbrows : List Row) (k : List Val) (grpRows : List Row)
    (x : Row) (hx : x ∈ dbrows) :
    x ∈ (processGroup table gf uniqs dbrows k grpRows).rows := by
  rcases processGroup_rows_cases table gf uniqs dbrows k grpRows with hc | hc <;> rw [hc]
  · exact hx
  · exact insertOrIgnoreMany_mono uniqs grpRows dbrows x hx

theorem processGroup_rows_of_exists (table : String) (gf : List String)
    (uniqs : List (List String)) (dbrows : List Row) (g : List Val) (grpRows : List Row)
    (h : ∃ r ∈ dbrows, gf.map (getV r) = g) :
    (processGroup table gf uniqs dbrows g grpRows).rows = dbrows := by
  obtain ⟨r, hr, hkey⟩ := h
  rw [processGroup]
  cases hec : expandCandidates table gf g (grpRows.headD []) with
  | none => rfl
  | some ctx =>
    obtain ⟨tl, hgk⟩ := expandCandidates_head hec
    dsimp only
    rw [hgk]
    by_cases hk : keptPairs gf g = []
    · rw [probeLoop_head_malformed _ _ _ _ _ _ _ _ _ hk]
    · have hm : rowMatches r (keptPairs gf g) = true := by
        rw [← hkey]; exact rowMatches_self r gf
      rw [probeLoop_head_match _ _ _ _ _ _ _ _ _ hk r hr hm]

theorem runGroups_countP (table : String) (gf : List String)
    (uniqs : List (List String)) (g : List Val) :
    ∀ (buckets : List (List Val × List Row)) (dbrows : List Row) (n : Nat),
    (∃ r ∈ dbrows, gf.map (getV r) = g) →
    (∀ p ∈ buckets, ∀ x ∈ p.2, gf.map (getV x) = p.1) →
    ((runGroups table gf uniqs buckets dbrows n).finalRows).countP
        (fun r => decide (gf.map (getV r) = g)) =
      dbrows.countP (fun r => decide (gf.map (getV r) = g)) := by
  intro buckets
  induction buckets with
  | nil => intro dbrows n _ _; rfl
  | cons b rest ih =>
    intro dbrows n hex hbk
    obtain ⟨k, rs⟩ := b
    rw [runGroups]
    by_cases hkg : k = g
    · subst hkg
      have hrows : (processGroup table gf uniqs dbrows k rs).rows = dbrows :=
        processGroup_rows_of_exists table gf uniqs dbrows k rs hex
      split
      · rw [Outcome.finalRows, hrows]
      · rw [hrows]
        exact ih dbrows _ hex (fun q hq => hbk q (List.mem_cons_of_mem _ hq))
    · have hpz : ∀ x ∈ rs, (fun r => decide (gf.map (getV r) = g)) x = false := by
        intro x hx
        have := hbk (k, rs) (List.mem_cons_self _ _) x hx
        simp only [this]
        simpa using hkg
      have hcnt := processGroup_countP _ table gf uniqs dbrows k rs hpz
      obtain ⟨r, hr, hkey⟩ := hex
      have hmono : ∃ x ∈ (processGroup table gf uniqs dbrows k rs).rows,
          gf.map (getV x) = g :=
        ⟨r, processGroup_mono table gf uniqs dbrows k rs r hr, hkey⟩
      split
      · exact hcnt
      · rw [ih _ _ hmono (fun q hq => hbk q (List.mem_cons_of_mem _ hq))]
        exact hcnt

theorem chunksOf_flatten (n : Nat) : ∀ l : List (List Val), (chunksOf n l).flatten = l
  | [] => by rw [chunksOf]; rfl
  | x :: xs => by
    rw [chunksOf, List.flatten_cons,
      chunksOf_flatten n ((x :: xs).drop (max 1 n)), List.take_append_drop]
termination_by l => l.length
decreasing_by
  simp only [List.length_drop, List.length_cons]
  have h1 : 1 ≤ max 1 n := Nat.le_max_left 1 n
  omega

theorem existingKeys_mem (b : Nat) (dbrows : List Row) (gf : List String)
    (keys : List (List Val)) (key : List Val) :
    key ∈ existingKeys b dbrows gf keys ↔
      key ∈ keys ∧ dbrows.any (keyMatchesRow gf key) = true := by
  rw [existingKeys]
  simp only [List.mem_flatten, List.mem_map]
  constructor
  · rintro ⟨lp, ⟨c, hc, rfl⟩, hkey⟩
    rw [probeChunk, List.mem_filter] at hkey
    refine ⟨?_, hkey.2⟩
    rw [← chunksOf_flatten (b / gf.length) keys]
    exact List.mem_flatten.mpr ⟨c, hc, hkey.1⟩
  · rintro ⟨hin, hany⟩
    rw [← chunksOf_flatten (b / gf.length) keys] at hin
    obtain ⟨c, hc, hkc⟩ := List.mem_flatten.mp hin
    exact ⟨probeChunk dbrows gf c, ⟨c, hc, rfl⟩, List.mem_filter.mpr ⟨hkc, hany⟩⟩

/-! Claim theorems. -/

/-- C8: `fields_before` returns exactly the fields strictly before the
first occurrence of the pivot, in their original order (the returned list
is a prefix of the input, followed by the pivot, and does not itself
contain the pivot); when the pivot is absent it returns the full list
unchanged. -/
theorem fields_before_first_occurrence (fields : List String) (pivot : String) :
    (pivot ∈ fields → ∃ suffix, fields = fields_before fields pivot ++ pivot :: suffix ∧
        pivot ∉ fields_before fields pivot) ∧
    (pivot ∉ fields → fields_before fields pivot = fields) := by
  constructor
  · intro hmem
    cases h : indexOfFirst pivot fields with
    | none => exact absurd hmem ((indexOfFirst_eq_none pivot fields).mp h)
    | some i =>
      obtain ⟨h1, suffix, h2⟩ := indexOfFirst_take pivot fields i h
      rw [fields_before, h]
      exact ⟨suffix, h2, h1⟩
  · intro hnot
    rw [fields_before, (indexOfFirst_eq_none pivot fields).mpr hnot]

/-- Witness for C8 at the docstring example
`['center_id', 'seq_no', 'start_min']`. -/
theorem fields_before_first_occurrence_witness :
    ["center_id", "seq_no", "start_min"] =
      fields_before ["center_id", "seq_no", "start_min"] "seq_no" ++
        "seq_no" :: ["start_min"] ∧
    "seq_no" ∉ fields_before ["center_id", "seq_no", "start_min"] "seq_no" := by
  obtain ⟨s, h1, h2⟩ :=
    (fields_before_first_occurrence ["center_id", "seq_no", "start_min"] "seq_no").1
      (by decide)
  exact ⟨by decide, h2⟩

/-- C9: a load call with an empty rows collection returns False, leaves the
stored rows unchanged, and executes zero store statements (the empty check
precedes the PRAGMA introspection and every probe and insert). -/
theorem insert_groups_empty_batch_noop (db : DB) (table : String)
    (group_fields : List String) :
    insert_groups_with_conflict_report db table [] group_fields =
      .ok false db.rows 0 := rfl

/-- C6: `bulk_insert_if_group_new` returns exactly the result of
`insert_groups_with_conflict_report` on the same arguments - its first
statement is the delegating return, so the batched WITH/VALUES probing and
filtered bulk-insert text below it (embedded separately as `existingKeys`)
is unreachable for every input. -/
theorem bulk_insert_if_group_new_delegates (db : DB) (table : String)
    (rows : List Row) (key_fields : List String) :
    bulk_insert_if_group_new db table rows key_fields =
      insert_groups_with_conflict_report db table rows key_fields := rfl

/-- C2, code-bug exhibit: a NULL-valued key column is dropped from the
probe predicate entirely (the `continue` fires before the dead `IS` arm),
so the probe for key `(X, NULL)` matches a stored row whose second column
holds the non-null value `Y` - the docstring promises an `IS` comparison
instead. -/
theorem build_select_one_drops_null_column :
    build_select_one "waypoints" ["a", "b"] [.str "X", .null] =
      .ok ("SELECT * FROM waypoints WHERE a = ? LIMIT 1", [.str "X"]) ∧
    execSelectOne [[("a", .str "X"), ("b", .str "Y")]] ["a", "b"]
      [.str "X", .null] = some true := by
  constructor
  · rfl
  · rfl

/-- C1, code-bug exhibit: the first load of the demo batch returns True
and stores its two rows, but the second, identical load also returns True
(with the store unchanged and only the PRAGMA and one probe executed),
although every group was judged pre-existing - `return True` at the end of
`insert_groups_with_conflict_report` ignores whether any insert was
issued, contradicting the documented False. -/
theorem insert_groups_returns_true_when_all_exist :
    insert_groups_with_conflict_report ⟨[], []⟩ "time_of_op" demoBatch
        ["x", "y", "z"] = .ok true demoBatch 3 ∧
    insert_groups_with_conflict_report ⟨demoBatch, []⟩ "time_of_op" demoBatch
        ["x", "y", "z"] = .ok true demoBatch 2 := by
  constructor
  · rfl
  · rfl

/-- C7, counterexample: for the concrete record shape with an empty field
list, both statement derivations return `.ok` statement text (with an
empty column list) - neither fails with a `SchemaError`. -/
theorem schema_empty_fields_returns_text :
    to_create_statement_result ⟨"t", [], [], none⟩ =
      .ok "CREATE TABLE IF NOT EXISTS t ();" ∧
    to_insert_statement_result ⟨"t", [], [], none⟩ =
      .ok "INSERT OR IGNORE INTO t () VALUES ();" := by
  constructor
  · rfl
  · rfl

/-- C7, amended: for every record shape whose field list is empty (no
plain fields, no typed fields, no leading-field attribute), the statement
derivations return the statement text with an empty column list and raise
no error. -/
theorem schema_empty_fields_no_error (t : TableShape)
    (h1 : t.typed_fields = []) (h2 : t.fields = []) (h3 : t.leading = none) :
    to_create_statement_result t =
      .ok ("CREATE TABLE IF NOT EXISTS " ++ t.table_name ++ " ();") ∧
    to_insert_statement_result t =
      .ok ("INSERT OR IGNORE INTO " ++ t.table_name ++ " () VALUES ();") := by
  obtain ⟨name, fs, tfs, ld⟩ := t
  dsimp only at h1 h2 h3
  cases h1
  cases h2
  cases h3
  simp only [to_create_statement_result, to_insert_statement_result,
    to_create_statement, to_insert_statement, Except.ok.injEq]
  constructor
  · simp only [String.append_assoc]
    rfl
  · simp only [String.append_assoc]
    rfl

/-- Witness for the amended C7 at the empty shape named `t`. -/
theorem schema_empty_fields_no_error_witness :
    to_create_statement_result ⟨"t", [], [], none⟩ =
      .ok ("CREATE TABLE IF NOT EXISTS " ++ "t" ++ " ();") ∧
    to_insert_statement_result ⟨"t", [], [], none⟩ =
      .ok ("INSERT OR IGNORE INTO " ++ "t" ++ " () VALUES ();") :=
  schema_empty_fields_no_error ⟨"t", [], [], none⟩ rfl rfl rfl

/-- C3: if any stored row already matches a group's key tuple (whatever its
trailing values hold), the load call inserts zero rows of that group:
the number of stored rows carrying that group key is unchanged on every
exit path of the call. -/
theorem group_exists_inserts_nothing (db : DB) (table : String) (rows : List Row)
    (gf : List String) (g : List Val)
    (h : ∃ r ∈ db.rows, gf.map (getV r) = g) :
    ((insert_groups_with_conflict_report db table rows gf).finalRows).countP
        (fun r => decide (gf.map (getV r) = g)) =
      (db.rows).countP (fun r => decide (gf.map (getV r) = g)) := by
  rw [insert_groups_with_conflict_report]
  split
  · rfl
  · exact runGroups_countP table gf (uniqueIndexes db) g (bucket gf rows) db.rows _ h
      (bucket_inv gf rows)

/-- Witness for C3: one stored row with key `x = A` and a fresh two-row
batch with the same key. -/
theorem group_exists_inserts_nothing_witness :
    ((insert_groups_with_conflict_report ⟨[c3Stored], []⟩ "mytable" c3Batch
        ["x"]).finalRows).countP
        (fun r => decide (["x"].map (getV r) = [Val.str "A"])) =
      ([c3Stored]).countP (fun r => decide (["x"].map (getV r) = [Val.str "A"])) :=
  group_exists_inserts_nothing ⟨[c3Stored], []⟩ "mytable" c3Batch ["x"] [Val.str "A"]
    ⟨c3Stored, by decide, by decide⟩

/-- C5: the batched existence prober partitions the candidate keys into
chunks of size `max 1 (budget / width)` whose concatenation is exactly the
candidate list (every key covered exactly once), and a key is in the probe
result iff it is a candidate and joins a stored row - for every budget, so
the result is independent of the chunk size. -/
theorem existingKeys_partition_budget_independent (budget : Nat)
    (dbrows : List Row) (gf : List String) (keys : List (List Val))
    (hb : 0 < budget) :
    (chunksOf (budget / gf.length) keys).flatten = keys ∧
    (∀ key, key ∈ existingKeys budget dbrows gf keys ↔
      key ∈ keys ∧ dbrows.any (keyMatchesRow gf key) = true) ∧
    (∀ budget2, 0 < budget2 → ∀ key,
      (key ∈ existingKeys budget dbrows gf keys ↔
       key ∈ existingKeys budget2 dbrows gf keys)) := by
  refine ⟨chunksOf_flatten _ keys,
    fun key => existingKeys_mem budget dbrows gf keys key, ?_⟩
  intro b2 _ key
  rw [existingKeys_mem, existingKeys_mem]

/-- Witness for C5 with budget 6, width 1, two candidate keys of which one
is stored. -/
theorem existingKeys_partition_budget_independent_witness :
    (chunksOf (6 / (["k"] : List String).length)
        [[Val.int 1], [Val.int 3]]).flatten = [[Val.int 1], [Val.int 3]] ∧
    ([Val.int 3] ∈ existingKeys 6 [[("k", Val.int 3)]] ["k"]
        [[Val.int 1], [Val.int 3]] ↔
      [Val.int 3] ∈ [[Val.int 1], [Val.int 3]] ∧
      ([[("k", Val.int 3)]].any (keyMatchesRow ["k"] [Val.int 3])) = true) :=
  ⟨(existingKeys_partition_budget_independent 6 [[("k", Val.int 3)]] ["k"]
      [[Val.int 1], [Val.int 3]] (by decide)).1,
   (existingKeys_partition_budget_independent 6 [[("k", Val.int 3)]] ["k"]
      [[Val.int 1], [Val.int 3]] (by decide)).2.1 [Val.int 3]⟩

/-- C10: for every table name and non-empty column list whose values are
all NULL, `build_select_one` returns SQL text whose WHERE clause carries no
predicate (`SELECT * FROM <table> WHERE  LIMIT 1`) with an empty parameter
tuple, and executing that statement is a sqlite syntax error (`none` in
the execution model), so the probe is not an executable SELECT. -/
theorem build_select_one_all_null_not_executable (table : String)
    (cols : List String) (vals : List Val) (hne : cols ≠ [])
    (hlen : cols.length = vals.length) (hnull : ∀ v ∈ vals, v = Val.null) :
    build_select_one table cols vals =
      .ok ("SELECT * FROM " ++ table ++ " WHERE " ++ " LIMIT 1", []) ∧
    ∀ dbrows : List Row, execSelectOne dbrows cols vals = none := by
  have hkept : keptPairs cols vals = [] := by
    rw [keptPairs, List.filter_eq_nil]
    intro p hp
    have h2 := (List.of_mem_zip hp).2
    simp [hnull _ h2]
  constructor
  · rw [build_select_one, if_neg (by omega)]
    dsimp only
    rw [hkept]
    dsimp only [List.map_nil]
    rw [show String.intercalate " AND " ([] : List String) = "" from rfl,
      String.append_empty]
  · intro dbrows
    rw [execSelectOne, if_pos (by simp [hkept])]

/-- Witness for C10 at table `t` with the single all-null column `a`. -/
theorem build_select_one_all_null_not_executable_witness :
    build_select_one "t" ["a"] [Val.null] =
      .ok ("SELECT * FROM " ++ "t" ++ " WHERE " ++ " LIMIT 1", []) ∧
    execSelectOne [] ["a"] [Val.null] = none :=
  ⟨(build_select_one_all_null_not_executable "t" ["a"] [Val.null] (by decide)
      (by decide) (by decide)).1,
   (build_select_one_all_null_not_executable "t" ["a"] [Val.null] (by decide)
      (by decide) (by decide)).2 []⟩

/-- C4: for every restrictive-class table whose first `_id`-suffixed group
field `f` holds the identifier `KSRENON`, the candidate key set built
before probing contains the key with the identifier replaced by
`RENO NORTH` (prefix `KS` stripped, trailing `N` expanded); consequently,
in the concrete reno scenario a group already stored under `RENO NORTH`
is recognized as existing and the incoming `KSRENON` batch is skipped,
leaving the store unchanged. -/
theorem ksrenon_expands_to_reno_north (table f : String) (gf : List String)
    (gkey : List Val) (row0 : Row) (ctx : GroupCtx)
    (ht : strContains table "restrictive" = true)
    (hf : (gf.filter (fun c => strEndsWith c "_id")).head? = some f)
    (hv : (gf.zip gkey).lookup f = some (Val.str "KSRENON"))
    (hctx : expandCandidates table gf gkey row0 = some ctx) :
    valsOf (updAssoc (gf.zip gkey) f (Val.str "RENO NORTH")) ∈ ctx.gkeys ∧
    insert_groups_with_conflict_report ⟨[renoStored], []⟩ "restrictive_airspace"
        [renoIncoming] ["region", "restrictive_id"] = .ok true [renoStored] 5 := by
  have hks : strExpansion (gf.zip gkey) f "KSRENON" gkey =
      some [valsOf (updAssoc (gf.zip gkey) f (Val.str "SRENON")),
            valsOf (updAssoc (gf.zip gkey) f (Val.str "RENON")),
            valsOf (updAssoc (gf.zip gkey) f (Val.str "RENO NORTH"))] := rfl
  have hexp : expandCandidates table gf gkey row0 =
      some ⟨gkey :: [valsOf (updAssoc (gf.zip gkey) f (Val.str "SRENON")),
                     valsOf (updAssoc (gf.zip gkey) f (Val.str "RENON")),
                     valsOf (updAssoc (gf.zip gkey) f (Val.str "RENO NORTH"))],
            some f,
            ((row0.map (·.1)).filter (fun c => strEndsWith c "_name")).head?,
            (((row0.map (·.1)).filter (fun c => strEndsWith c "_name")).head?).map
              (fun nf => getV row0 nf)⟩ := by
    unfold expandCandidates
    rw [hf]
    dsimp only
    rw [hv]
    dsimp only [Option.getD_some]
    rw [ht, show (Val.str "KSRENON").truthy = true from rfl, Bool.true_and, if_pos rfl]
    rw [hks, Option.map_some']
  rw [hexp] at hctx
  cases hctx
  constructor
  · exact List.mem_cons_of_mem _ (List.mem_cons_of_mem _ (List.mem_cons_of_mem _
      (List.mem_cons_self _ _)))
  · rfl

/-- Witness for C4 on the concrete reno scenario: the key
`(ZZ, RENO NORTH)` is among the candidates expanded from `KSRENON`, and the
load call skips the group. -/
theorem ksrenon_expands_to_reno_north_witness :
    valsOf (updAssoc ((["region", "restrictive_id"] : List String).zip
        [Val.str "ZZ", Val.str "KSRENON"]) "restrictive_id"
        (Val.str "RENO NORTH")) ∈
      (⟨[[Val.str "ZZ", Val.str "KSRENON"], [Val.str "ZZ", Val.str "SRENON"],
         [Val.str "ZZ", Val.str "RENON"], [Val.str "ZZ", Val.str "RENO NORTH"]],
        some "restrictive_id", none, none⟩ : GroupCtx).gkeys ∧
    insert_groups_with_conflict_report ⟨[renoStored], []⟩ "restrictive_airspace"
        [renoIncoming] ["region", "restrictive_id"] = .ok true [renoStored] 5 :=
  ksrenon_expands_to_reno_north "restrictive_airspace" "restrictive_id"
    ["region", "restrictive_id"] [Val.str "ZZ", Val.str "KSRENON"] renoIncoming
    ⟨[[Val.str "ZZ", Val.str "KSRENON"], [Val.str "ZZ", Val.str "SRENON"],
      [Val.str "ZZ", Val.str "RENON"], [Val.str "ZZ", Val.str "RENO NORTH"]],
      some "restrictive_id", none, none⟩
    (by decide) (by decide) (by decide) (by decide)

end Cifparse
